import Mathlib

/-!
Verification development for the llm-workflow library (Rust).

We build a shallow embedding of the parts of the library that the
claims concern:

* `WorkflowMetrics` and its mutation methods (src/metrics.rs),
* `ExecutionContext` and its mutation methods (src/context.rs),
* the step combinators: `ChainStep`, `ChainTupleStep` (src/step/chain.rs),
  `SingleItemAdapter`, `BatchStep` (src/step/batch.rs),
  `ParallelMapStep` (src/step/parallel.rs),
* `CheckpointStep`, `ConditionalCheckpointStep` (src/checkpoint.rs),
* `InstrumentedStep` (src/instrumented.rs),
* `StepAdapter` (src/state.rs),
* `Workflow` (src/workflow.rs).

Modelling conventions:

* Rust `usize` counters are modelled as `Nat` (the library only ever adds
  to them; wraparound is out of scope for the claims).
* The shared, mutex-protected `ExecutionContext` is modelled by explicit
  state passing: every step is a function
  `ExecutionContext -> Input -> Except Error Output × ExecutionContext`.
  All combinators except `ParallelMapStep` are strictly sequential, so
  state passing is an exact model of their serialized lock accesses.
* `TraceEntry` carries a wall-clock timestamp taken at emission time
  (src/events.rs, `TraceEntry::new`); wall-clock time is an external
  effect, so the trace log is modelled as the ordered list of emitted
  `WorkflowEvent` values, which is the part the claims speak about.
  Likewise the `duration_ms` measured by `InstrumentedStep` via
  `Instant::now` is supplied as an external parameter.
* `serde_json::to_value` is an external serialization facility; it is
  modelled as a caller-supplied function `I -> Option Json`, `none`
  standing for a serialization error.
* In `ParallelMapStep::run` each spawned task runs the inner step on a
  clone of the context handle and `join_all` returns the results in
  input order; the interleaving of context side effects is unspecified,
  so the model takes the per-item outcome as a function of the item and
  mirrors `join_all` + `collect` on the outcome list.
-/

/-- Json models serde_json::Value: an externally defined structured value
type (null, booleans, numbers, strings, arrays, objects). Number precision
is irrelevant to the claims, so numbers are modelled as integers. -/
inductive Json where
  | null : Json
  | bool (b : Bool) : Json
  | num (n : Int) : Json
  | str (s : String) : Json
  | arr (items : List Json) : Json
  | obj (fields : List (String × Json)) : Json
deriving Repr

/-- serializationPlaceholder models the fallback value
json!("<serialization_error>") used when serialization of a snapshot
fails (src/checkpoint.rs, src/context.rs). -/
def serializationPlaceholder : Json := Json.str "<serialization_error>"

/-- Error models the enum Error of src/error.rs: the closed error
taxonomy of the library. The Json variant of the source wraps a
serde_json::Error; its message string is kept. -/
inductive Error where
  | Checkpoint (step_name : String) (data : Json) : Error
  | Validation (msg : String) : Error
  | Execution (msg : String) : Error
  | Json (msg : String) : Error
  | Message (msg : String) : Error
deriving Repr

/-- squote is the ASCII single quote character as a string. -/
def squote : String := String.singleton (Char.ofNat 39)

/-- Error.display models the Display implementation derived by thiserror
from the error attributes in src/error.rs. -/
def Error.display : Error → String
  | .Checkpoint step_name _ =>
      "Checkpoint reached at step " ++ squote ++ step_name ++ squote
  | .Validation msg => "Validation error: " ++ msg
  | .Execution msg => "Execution error: " ++ msg
  | .Json msg => "JSON error: " ++ msg
  | .Message msg => msg

/-- WorkflowMetrics models the struct WorkflowMetrics of src/metrics.rs. -/
structure WorkflowMetrics where
  prompt_token_count : Nat
  completion_token_count : Nat
  total_token_count : Nat
  steps_completed : Nat
  failures : List String
deriving Repr, DecidableEq

/-- WorkflowMetrics.init models WorkflowMetrics::default(): all counters
zero, no failures. -/
def WorkflowMetrics.init : WorkflowMetrics :=
  { prompt_token_count := 0
    completion_token_count := 0
    total_token_count := 0
    steps_completed := 0
    failures := [] }

/-- WorkflowMetrics.add_prompt_tokens models
WorkflowMetrics::add_prompt_tokens (src/metrics.rs lines 25-28): adds to
prompt_token_count and to total_token_count. -/
def WorkflowMetrics.add_prompt_tokens (m : WorkflowMetrics) (count : Nat) :
    WorkflowMetrics :=
  { m with
    prompt_token_count := m.prompt_token_count + count
    total_token_count := m.total_token_count + count }

/-- WorkflowMetrics.add_completion_tokens models
WorkflowMetrics::add_completion_tokens (src/metrics.rs lines 31-34). -/
def WorkflowMetrics.add_completion_tokens (m : WorkflowMetrics) (count : Nat) :
    WorkflowMetrics :=
  { m with
    completion_token_count := m.completion_token_count + count
    total_token_count := m.total_token_count + count }

/-- WorkflowMetrics.add_tokens models WorkflowMetrics::add_tokens
(src/metrics.rs lines 37-41). -/
def WorkflowMetrics.add_tokens (m : WorkflowMetrics) (prompt completion : Nat) :
    WorkflowMetrics :=
  { m with
    prompt_token_count := m.prompt_token_count + prompt
    completion_token_count := m.completion_token_count + completion
    total_token_count := m.total_token_count + (prompt + completion) }

/-- WorkflowMetrics.record_failure models WorkflowMetrics::record_failure
(src/metrics.rs lines 44-46): appends the message. -/
def WorkflowMetrics.record_failure (m : WorkflowMetrics) (error : String) :
    WorkflowMetrics :=
  { m with failures := m.failures ++ [error] }

/-- WorkflowMetrics.record_step models WorkflowMetrics::record_step
(src/metrics.rs lines 49-51). -/
def WorkflowMetrics.record_step (m : WorkflowMetrics) : WorkflowMetrics :=
  { m with steps_completed := m.steps_completed + 1 }

/-- WorkflowEvent models the enum WorkflowEvent of src/events.rs. -/
inductive WorkflowEvent where
  | StepStart (step_name : String) (input_type : String) : WorkflowEvent
  | StepEnd (step_name : String) (duration_ms : Nat) : WorkflowEvent
  | Artifact (step_name : String) (key : String) (data : Json) : WorkflowEvent
  | Error (step_name : String) (message : String) : WorkflowEvent
deriving Repr

/-- ExecutionContext models the struct ExecutionContext of src/context.rs.
The two Arc-Mutex cells become plain fields; every method that locks a
cell and mutates it becomes a function from context to context, and
sequential execution threads the context value through. The trace log
keeps the emitted events in emission order (timestamps elided, see the
module comment). -/
structure ExecutionContext where
  metrics : WorkflowMetrics
  traces : List WorkflowEvent
deriving Repr

/-- ExecutionContext.new models ExecutionContext::new (src/context.rs
lines 55-60): default metrics and an empty trace log. -/
def ExecutionContext.new : ExecutionContext :=
  { metrics := WorkflowMetrics.init, traces := [] }

/-- ExecutionContext.record_prompt_tokens models
ExecutionContext::record_prompt_tokens (src/context.rs lines 63-66).
Note the source increments only m.prompt_token_count; it does not touch
total_token_count. -/
def ExecutionContext.record_prompt_tokens (ctx : ExecutionContext)
    (count : Nat) : ExecutionContext :=
  { ctx with
    metrics :=
      { ctx.metrics with
        prompt_token_count := ctx.metrics.prompt_token_count + count } }

/-- ExecutionContext.record_completion_tokens models
ExecutionContext::record_completion_tokens (src/context.rs lines 69-72).
Note the source increments only m.completion_token_count; it does not
touch total_token_count. -/
def ExecutionContext.record_completion_tokens (ctx : ExecutionContext)
    (count : Nat) : ExecutionContext :=
  { ctx with
    metrics :=
      { ctx.metrics with
        completion_token_count := ctx.metrics.completion_token_count + count } }

/-- ExecutionContext.record_tokens models ExecutionContext::record_tokens
(src/context.rs lines 75-80): increments all three token counters. -/
def ExecutionContext.record_tokens (ctx : ExecutionContext)
    (prompt completion : Nat) : ExecutionContext :=
  { ctx with
    metrics :=
      { ctx.metrics with
        prompt_token_count := ctx.metrics.prompt_token_count + prompt
        completion_token_count :=
          ctx.metrics.completion_token_count + completion
        total_token_count :=
          ctx.metrics.total_token_count + (prompt + completion) } }

/-- ExecutionContext.record_step models ExecutionContext::record_step
(src/context.rs lines 83-86). -/
def ExecutionContext.record_step (ctx : ExecutionContext) : ExecutionContext :=
  { ctx with metrics := ctx.metrics.record_step }

/-- ExecutionContext.record_failure models
ExecutionContext::record_failure (src/context.rs lines 89-92). -/
def ExecutionContext.record_failure (ctx : ExecutionContext)
    (error : String) : ExecutionContext :=
  { ctx with metrics := ctx.metrics.record_failure error }

/-- ExecutionContext.snapshot models ExecutionContext::snapshot
(src/context.rs lines 96-99): a clone of the current metrics. -/
def ExecutionContext.snapshot (ctx : ExecutionContext) : WorkflowMetrics :=
  ctx.metrics

/-- ExecutionContext.emit models ExecutionContext::emit (src/context.rs
lines 116-119): appends the event to the trace log. -/
def ExecutionContext.emit (ctx : ExecutionContext) (event : WorkflowEvent) :
    ExecutionContext :=
  { ctx with traces := ctx.traces ++ [event] }

/-- ExecutionContext.clear_traces models ExecutionContext::clear_traces
(src/context.rs lines 161-163). -/
def ExecutionContext.clear_traces (ctx : ExecutionContext) :
    ExecutionContext :=
  { ctx with traces := [] }

/-- StepFn is the shallow embedding of the Step capability
(src/step/mod.rs): an async function from a context reference and an
input to a Result, with the context mutations made explicit by state
passing. -/
def StepFn (I O : Type) : Type :=
  ExecutionContext → I → Except Error O × ExecutionContext

/-- ChainStep_run models ChainStep::run (src/step/chain.rs lines 33-36):
runs the first step; the question-mark operator returns the error at
once, otherwise the intermediate value feeds the second step. -/
def ChainStep_run {I M O : Type} (first : StepFn I M) (second : StepFn M O) :
    StepFn I O := fun ctx input =>
  match first ctx input with
  | (Except.error e, ctx2) => (Except.error e, ctx2)
  | (Except.ok intermediate, ctx2) => second ctx2 intermediate

/-- ChainTupleStep_run models ChainTupleStep::run (src/step/chain.rs
lines 67-71): the first step receives a clone of the input, then the
second receives the input, each behind the question-mark operator; on
both successes the pair is returned. -/
def ChainTupleStep_run {I O1 O2 : Type} (first : StepFn I O1)
    (second : StepFn I O2) : StepFn I (O1 × O2) := fun ctx input =>
  match first ctx input with
  | (Except.error e, ctx2) => (Except.error e, ctx2)
  | (Except.ok a, ctx2) =>
    match second ctx2 input with
    | (Except.error e, ctx3) => (Except.error e, ctx3)
    | (Except.ok b, ctx3) => (Except.ok (a, b), ctx3)

/-- siaLoop models the loop body of SingleItemAdapter::run
(src/step/batch.rs lines 33-39): items are processed sequentially, the
question-mark operator on the first failing item returns its error and
the results already pushed are discarded. -/
def siaLoop {I O : Type} (step : StepFn I O) :
    List I → ExecutionContext → Except Error (List O) × ExecutionContext
  | [], ctx => (Except.ok [], ctx)
  | item :: rest, ctx =>
    match step ctx item with
    | (Except.error e, ctx2) => (Except.error e, ctx2)
    | (Except.ok o, ctx2) =>
      match siaLoop step rest ctx2 with
      | (Except.error e, ctx3) => (Except.error e, ctx3)
      | (Except.ok os, ctx3) => (Except.ok (o :: os), ctx3)

/-- SingleItemAdapter_run models SingleItemAdapter::run
(src/step/batch.rs lines 33-39). -/
def SingleItemAdapter_run {I O : Type} (step : StepFn I O) :
    StepFn (List I) (List O) := fun ctx input => siaLoop step input ctx

/-- BatchStep_new models BatchStep::new (src/step/batch.rs lines 57-60):
the assertion batch_size > 0 panics on zero, modelled as none; on a
positive size the configured chunk size is kept. -/
def BatchStep_new (batch_size : Nat) : Option Nat :=
  if 0 < batch_size then some batch_size else none

/-- chunksRun models the chunking performed by the while loop of
BatchStep::run (src/step/batch.rs lines 73-85): while items remain, the
next min(batch_size, remaining.len()) items are drained as one chunk.
For a nonempty list and batch_size c at least 1 this is take c followed
by drop c, written here as one explicit head element plus take (c - 1)
so that each step of the recursion visibly consumes at least one item
(BatchStep::new rejects c = 0, at which the source loop would not
terminate; this definition is only ever used with 0 < c). -/
def chunksRun {I : Type} (c : Nat) : List I → List (List I)
  | [] => []
  | x :: xs => (x :: xs.take (c - 1)) :: chunksRun c (xs.drop (c - 1))
termination_by l => l.length
decreasing_by
  simp only [List.length_drop, List.length_cons]
  omega

/-- batchLoop models the while loop of BatchStep::run (src/step/batch.rs
lines 73-85) over the already-computed chunk list, threading the context
and additionally counting how many times the inner step was invoked: one
invocation per iteration, the question-mark operator stopping at the
first failing chunk and discarding the accumulated outputs. -/
def batchLoop {I O : Type} (step : StepFn (List I) (List O)) :
    List (List I) → ExecutionContext →
      (Except Error (List O) × ExecutionContext) × Nat
  | [], ctx => ((Except.ok [], ctx), 0)
  | chunk :: rest, ctx =>
    match step ctx chunk with
    | (Except.error e, ctx2) => ((Except.error e, ctx2), 1)
    | (Except.ok outs, ctx2) =>
      match batchLoop step rest ctx2 with
      | ((Except.error e, ctx3), k) => ((Except.error e, ctx3), k + 1)
      | ((Except.ok more, ctx3), k) => ((Except.ok (outs ++ more), ctx3), k + 1)

/-- BatchStep_run models BatchStep::run (src/step/batch.rs lines 73-85):
the input is consumed chunk by chunk, each chunk fed to the inner step in
sequence, outputs concatenated in chunk order. -/
def BatchStep_run {I O : Type} (step : StepFn (List I) (List O))
    (batch_size : Nat) : StepFn (List I) (List O) := fun ctx input =>
  (batchLoop step (chunksRun batch_size input) ctx).1

/-- BatchStep_invocations counts how many times BatchStep::run invokes
the inner step on the given input: one invocation per loop iteration
actually executed. -/
def BatchStep_invocations {I O : Type} (step : StepFn (List I) (List O))
    (batch_size : Nat) (ctx : ExecutionContext) (input : List I) : Nat :=
  (batchLoop step (chunksRun batch_size input) ctx).2

/-- collectResults models Vec of Result collected into Result of Vec
(results.into_iter().collect() in src/step/parallel.rs line 50): the
first error in list order is returned, otherwise the list of all ok
values in order. -/
def collectResults {E O : Type} : List (Except E O) → Except E (List O)
  | [] => Except.ok []
  | r :: rs =>
    match r with
    | Except.error e => Except.error e
    | Except.ok o =>
      match collectResults rs with
      | Except.error e => Except.error e
      | Except.ok os => Except.ok (o :: os)

/-- ParallelMapStep_run models ParallelMapStep::run (src/step/parallel.rs
lines 42-51): one task per input item, each running the inner step on a
clone of the context handle; join_all returns the Result values in input
order and collect surfaces the first error in that order. The per-item
outcome is supplied as a function of the item (the interleaving of
context side effects across tasks is unspecified and not modelled). -/
def ParallelMapStep_run {I O : Type} (outcome : I → Except Error O)
    (input : List I) : Except Error (List O) :=
  collectResults (input.map outcome)

/-- CheckpointStep_run models CheckpointStep::run (src/checkpoint.rs
lines 55-62): serialize the input (placeholder on serialization failure)
and always return a Checkpoint error with the configured step name. -/
def CheckpointStep_run {I : Type} (step_name : String)
    (serialize : I → Option Json) : StepFn I I := fun ctx input =>
  let data := (serialize input).getD serializationPlaceholder
  (Except.error (Error.Checkpoint step_name data), ctx)

/-- ConditionalCheckpointStep_run models ConditionalCheckpointStep::run
(src/checkpoint.rs lines 121-132): when the predicate holds, behave as
the unconditional checkpoint; otherwise return the input unchanged. -/
def ConditionalCheckpointStep_run {I : Type} (step_name : String)
    (predicate : I → Bool) (serialize : I → Option Json) : StepFn I I :=
  fun ctx input =>
    if predicate input then
      let data := (serialize input).getD serializationPlaceholder
      (Except.error (Error.Checkpoint step_name data), ctx)
    else
      (Except.ok input, ctx)

/-- InstrumentedStep_run models InstrumentedStep::run (src/instrumented.rs
lines 62-90): emit StepStart, run the inner step, then on success record
one completed step and emit StepEnd with the measured duration, on
failure record one failure with the displayed error and emit an Error
event; the inner result is returned unchanged. The wall-clock duration
measured via Instant is an external input, supplied as duration_ms. -/
def InstrumentedStep_run {I O : Type} (inner : StepFn I O)
    (step_name : String) (input_type : String) (duration_ms : Nat) :
    StepFn I O := fun ctx input =>
  let ctx1 := ctx.emit (WorkflowEvent.StepStart step_name input_type)
  let r := inner ctx1 input
  match r.1 with
  | Except.ok _ =>
      (r.1, (r.2.record_step).emit (WorkflowEvent.StepEnd step_name duration_ms))
  | Except.error e =>
      (r.1,
        (r.2.record_failure e.display).emit
          (WorkflowEvent.Error step_name e.display))

/-- StateStepFn is the shallow embedding of the StateStep capability
(src/state.rs): each invocation consumes a state value and an input and
produces an output together with a new state, or fails. -/
def StateStepFn (S I O : Type) : Type :=
  ExecutionContext → S → I → Except Error (O × S) × ExecutionContext

/-- StepAdapter_run models StepAdapter::run (src/state.rs lines 233-247):
the held state is cloned out of the mutex, the inner stateful step runs
on the clone and the input, and only on success is the held state
replaced by the returned state (the question-mark operator returns the
inner error before the write-back). The result is the returned output,
the state held after the call, and the final context. -/
def StepAdapter_run {S I O : Type} (step : StateStepFn S I O)
    (ctx : ExecutionContext) (held : S) (input : I) :
    Except Error O × S × ExecutionContext :=
  match step ctx held input with
  | (Except.ok (output, new_state), ctx2) => (Except.ok output, new_state, ctx2)
  | (Except.error e, ctx2) => (Except.error e, held, ctx2)

/-- StepAdapter_reset models StepAdapter::reset (src/state.rs lines
216-219): the held state is replaced by the default value of the state
type. -/
def StepAdapter_reset (S : Type) [Inhabited S] : S := default

/-- Workflow_run models Workflow::run (src/workflow.rs lines 52-58): a
fresh context is created, the step runs once behind the question-mark
operator, then one completed step is recorded and a metrics snapshot is
returned with the output. -/
def Workflow_run {I O : Type} (step : StepFn I O) (input : I) :
    Except Error (O × WorkflowMetrics) :=
  match step ExecutionContext.new input with
  | (Except.error e, _) => Except.error e
  | (Except.ok result, ctx2) =>
      Except.ok (result, (ctx2.record_step).snapshot)

/-! Concrete steps used to exercise the combinators on closed inputs. -/

/-- stepFail is a concrete step that always fails with a fixed Message
error and leaves the context unchanged. -/
def stepFail : StepFn Nat Nat := fun ctx _ =>
  (Except.error (Error.Message "inner failure"), ctx)

/-- stepIncr is a concrete step that adds one to its input and leaves
the context unchanged. -/
def stepIncr : StepFn Nat Nat := fun ctx n => (Except.ok (n + 1), ctx)

/-- stepDouble is a concrete step that doubles its input and leaves the
context unchanged. -/
def stepDouble : StepFn Nat Nat := fun ctx n => (Except.ok (2 * n), ctx)

/-- outcomeC2 is a concrete per-item outcome: the item two fails with a
Message error, every other item succeeds with the item plus one. -/
def outcomeC2 : Nat → Except Error Nat := fun n =>
  if n = 2 then Except.error (Error.Message "boom") else Except.ok (n + 1)

/-- stepMapTimesTen is a concrete chunk-shaped step that multiplies every
item of its chunk by ten and leaves the context unchanged. -/
def stepMapTimesTen : StepFn (List Nat) (List Nat) := fun ctx ch =>
  (Except.ok (ch.map (fun n => 10 * n)), ctx)

/-- stateStepFail is a concrete stateful step that always fails and
leaves the context unchanged. -/
def stateStepFail : StateStepFn Nat Nat Nat := fun ctx _ _ =>
  (Except.error (Error.Message "state failure"), ctx)

/-- stateStepCount is a concrete stateful step: it returns the current
counter as output and the incremented counter as new state. -/
def stateStepCount : StateStepFn Nat Nat Nat := fun ctx s _ =>
  (Except.ok (s, s + 1), ctx)

/-- serializeNum serializes a natural number input to a Json number. -/
def serializeNum : Nat → Option Json := fun n => some (Json.num (n : Int))

/-- serializeNone is a serializer that always fails, standing for a value
the external serialization facility cannot encode. -/
def serializeNone : Nat → Option Json := fun _ => none

/-- predFalse is a predicate that never holds. -/
def predFalse : Nat → Bool := fun _ => false

/-! Helper lemmas about the chunking of BatchStep::run. -/

/-- chunksRun_eq_nil_iff: the chunk list is empty exactly when the input
list is empty. -/
theorem chunksRun_eq_nil_iff {I : Type} (c : Nat) (l : List I) :
    chunksRun c l = [] ↔ l = [] := by
  cases l with
  | nil => simp [chunksRun]
  | cons x xs => simp [chunksRun]

/-- chunksRun_flatten: concatenating the chunks in order restores the
input list. -/
theorem chunksRun_flatten {I : Type} (c : Nat) (l : List I) :
    (chunksRun c l).flatten = l := by
  induction l using chunksRun.induct c with
  | case1 => simp [chunksRun]
  | case2 x xs ih =>
      simp only [chunksRun, List.flatten_cons, ih, List.cons_append,
        List.take_append_drop]

/-- chunksRun_length: for a positive chunk size the number of chunks is
the length of the input divided by the chunk size, rounded up. -/
theorem chunksRun_length {I : Type} (c : Nat) (hc : 0 < c) (l : List I) :
    (chunksRun c l).length = (l.length + c - 1) / c := by
  induction l using chunksRun.induct c with
  | case1 =>
      simp [chunksRun, Nat.div_eq_of_lt (show c - 1 < c by omega)]
  | case2 x xs ih =>
      simp only [chunksRun, List.length_cons]
      rw [ih]
      simp only [List.length_drop]
      have h2 : xs.length + 1 + c - 1 = xs.length + c := by omega
      rcases le_or_lt (c - 1) xs.length with h | h
      · have h1 : xs.length - (c - 1) + c - 1 = xs.length := by omega
        rw [h1, h2, Nat.add_div_right _ hc]
      · have h1 : xs.length - (c - 1) = 0 := by omega
        rw [h1, h2]
        rw [Nat.div_eq_of_lt (show 0 + c - 1 < c by omega)]
        rw [Nat.add_div_right _ hc, Nat.div_eq_of_lt (by omega)]

/-- chunksRun_dropLast_length: for a positive chunk size every chunk
except possibly the last one has exactly the chunk size many items. -/
theorem chunksRun_dropLast_length {I : Type} (c : Nat) (hc : 0 < c)
    (l : List I) : ∀ ch ∈ (chunksRun c l).dropLast, ch.length = c := by
  induction l using chunksRun.induct c with
  | case1 => simp [chunksRun]
  | case2 x xs ih =>
      simp only [chunksRun]
      by_cases hrest : chunksRun c (xs.drop (c - 1)) = []
      · simp [hrest]
      · rw [List.dropLast_cons_of_ne_nil hrest]
        intro ch hch
        rcases List.mem_cons.mp hch with h | h
        · subst h
          have hxs : xs.drop (c - 1) ≠ [] := by
            intro hh
            exact hrest ((chunksRun_eq_nil_iff c _).mpr hh)
          have hlen : c - 1 < xs.length := by
            rcases Nat.lt_or_ge (c - 1) xs.length with h2 | h2
            · exact h2
            · exact absurd (List.drop_eq_nil_of_le h2) hxs
          simp [List.length_take]
          omega
        · exact ih ch h

/-- chunksRun_getLast_length: for a positive chunk size the last chunk
holds exactly the items remaining after the preceding full chunks. -/
theorem chunksRun_getLast_length {I : Type} (c : Nat) (hc : 0 < c)
    (l : List I) :
    ∀ ch, (chunksRun c l).getLast? = some ch →
      ch.length = l.length - c * ((chunksRun c l).length - 1) := by
  induction l using chunksRun.induct c with
  | case1 => simp [chunksRun]
  | case2 x xs ih =>
      intro ch hch
      simp only [chunksRun] at hch ⊢
      by_cases hrest : chunksRun c (xs.drop (c - 1)) = []
      · have hxs : xs.drop (c - 1) = [] := (chunksRun_eq_nil_iff c _).mp hrest
        have hlen : xs.length ≤ c - 1 := by
          have := congrArg List.length hxs
          simp only [List.length_drop, List.length_nil] at this
          omega
        rw [hrest] at hch ⊢
        simp only [List.getLast?_singleton, Option.some.injEq] at hch
        subst hch
        simp [List.length_take]
        omega
      · obtain ⟨r0, rs, hr⟩ := List.exists_cons_of_ne_nil hrest
        rw [hr] at hch
        rw [List.getLast?_cons_cons] at hch
        have hxs : xs.drop (c - 1) ≠ [] := by
          intro hh
          exact hrest ((chunksRun_eq_nil_iff c _).mpr hh)
        have hlen : c - 1 < xs.length := by
          rcases Nat.lt_or_ge (c - 1) xs.length with h2 | h2
          · exact h2
          · exact absurd (List.drop_eq_nil_of_le h2) hxs
        have ihch := ih ch (by rw [hr]; exact hch)
        rw [hr] at ihch ⊢
        simp only [List.length_drop, List.length_cons, Nat.add_sub_cancel]
          at ihch ⊢
        rw [Nat.mul_add, Nat.mul_one]
        generalize c * rs.length = k at ihch ⊢
        omega

/-! Helper lemmas about the loop of BatchStep::run. -/

/-- batchLoop_count_all_ok: when the inner step succeeds on every chunk
whatever the context, the loop invokes it once per chunk. -/
theorem batchLoop_count_all_ok {I O : Type} (step : StepFn (List I) (List O)) :
    ∀ chunks : List (List I),
      (∀ ctx2 ch, ch ∈ chunks → ((step ctx2 ch).1).isOk = true) →
      ∀ ctx, (batchLoop step chunks ctx).2 = chunks.length := by
  intro chunks
  induction chunks with
  | nil => intro _ _; rfl
  | cons ch rest ih =>
      intro h ctx
      rcases hs : step ctx ch with ⟨r, ctx2⟩
      cases r with
      | error e =>
          have h0 := h ctx ch (List.mem_cons_self _ _)
          rw [hs] at h0
          simp [Except.isOk, Except.toBool] at h0
      | ok outs =>
          have hrest := ih (fun c2 ch2 hm => h c2 ch2 (List.mem_cons_of_mem _ hm)) ctx2
          simp only [batchLoop, hs]
          rcases hb : batchLoop step rest ctx2 with ⟨⟨r2, ctx3⟩, k⟩
          rw [hb] at hrest
          cases r2 <;> simp_all [List.length_cons]

/-- batchLoop_map_ok: when the inner step maps every chunk elementwise by
g whatever the context, the loop returns the elementwise map of the
concatenation of the chunks. -/
theorem batchLoop_map_ok {I O : Type} (step : StepFn (List I) (List O))
    (g : I → O) :
    ∀ chunks : List (List I),
      (∀ ctx2 ch, ch ∈ chunks → (step ctx2 ch).1 = Except.ok (ch.map g)) →
      ∀ ctx, ((batchLoop step chunks ctx).1).1
        = Except.ok ((chunks.flatten).map g) := by
  intro chunks
  induction chunks with
  | nil => intro _ _; simp [batchLoop]
  | cons ch rest ih =>
      intro h ctx
      rcases hs : step ctx ch with ⟨r, ctx2⟩
      have h0 := h ctx ch (List.mem_cons_self _ _)
      rw [hs] at h0
      have h0b : r = Except.ok (ch.map g) := h0
      subst h0b
      have hrest := ih (fun c2 ch2 hm => h c2 ch2 (List.mem_cons_of_mem _ hm)) ctx2
      simp only [batchLoop, hs]
      rcases hb : batchLoop step rest ctx2 with ⟨⟨r2, ctx3⟩, k⟩
      rw [hb] at hrest
      have hr2 : r2 = Except.ok ((rest.flatten).map g) := hrest
      subst hr2
      simp [hb, List.flatten_cons, List.map_append]

/-! Helper lemmas about collecting a list of Results. -/

/-- collectResults_all_ok: when every entry is ok, collection succeeds
with the list of payloads, same length, position by position. -/
theorem collectResults_all_ok {E O : Type} :
    ∀ rs : List (Except E O), (∀ r ∈ rs, r.isOk = true) →
      ∃ os, collectResults rs = Except.ok os ∧ os.length = rs.length ∧
        ∀ k : Nat, rs[k]? = (os[k]?).map Except.ok := by
  intro rs
  induction rs with
  | nil =>
      intro _
      exact ⟨[], rfl, rfl, fun k => by simp⟩
  | cons r rest ih =>
      intro h
      have h0 := h r (List.mem_cons_self _ _)
      cases r with
      | error e => simp [Except.isOk, Except.toBool] at h0
      | ok o =>
          obtain ⟨os, hos, hlen, hidx⟩ :=
            ih (fun r2 hm => h r2 (List.mem_cons_of_mem _ hm))
          refine ⟨o :: os, ?_, ?_, ?_⟩
          · simp [collectResults, hos]
          · simp [hlen]
          · intro k
            cases k with
            | zero => simp
            | succ k2 => simpa using hidx k2

/-- collectResults_first_error: when position j holds an error entry and
every earlier entry is ok, collection returns exactly that error. -/
theorem collectResults_first_error {E O : Type} :
    ∀ rs : List (Except E O), ∀ j : Nat, ∀ e : E,
      rs[j]? = some (Except.error e) →
      (∀ r2 ∈ rs.take j, r2.isOk = true) →
      collectResults rs = Except.error e := by
  intro rs
  induction rs with
  | nil => intro j e hj _; simp at hj
  | cons r0 rest ih =>
      intro j e hj hpre
      cases j with
      | zero =>
          simp only [List.getElem?_cons_zero, Option.some.injEq] at hj
          subst hj
          rfl
      | succ j2 =>
          have h0 := hpre r0 (by simp [List.take_succ_cons])
          cases r0 with
          | error e2 => simp [Except.isOk, Except.toBool] at h0
          | ok o =>
              have hrec := ih j2 e (by simpa using hj)
                (fun r2 hm => hpre r2 (by simp [List.take_succ_cons, hm]))
              simp [collectResults, hrec]

/-! Claim theorems. -/

/-- C1: the claimed invariant that total_token_count always equals
prompt_token_count plus completion_token_count after every
token-recording mutation path fails on the code: the context methods
record_prompt_tokens and record_completion_tokens increment only the
individual counter and never touch total_token_count. On a fresh
context, record_prompt_tokens 5 leaves prompt at 5, completion at 0 and
total at 0 instead of 5, and record_completion_tokens 3 likewise leaves
total at 0; record_tokens and the three WorkflowMetrics methods do
maintain the sum, witnessed here on the same inputs. -/
theorem record_prompt_tokens_breaks_total_invariant :
    ((ExecutionContext.new.record_prompt_tokens 5).metrics.prompt_token_count = 5
      ∧ (ExecutionContext.new.record_prompt_tokens 5).metrics.completion_token_count = 0
      ∧ (ExecutionContext.new.record_prompt_tokens 5).metrics.total_token_count = 0)
  ∧ ((ExecutionContext.new.record_completion_tokens 3).metrics.completion_token_count = 3
      ∧ (ExecutionContext.new.record_completion_tokens 3).metrics.total_token_count = 0)
  ∧ (ExecutionContext.new.record_tokens 5 3).metrics.total_token_count = 8
  ∧ ((WorkflowMetrics.init.add_prompt_tokens 5).add_completion_tokens 3).total_token_count = 8
  ∧ (WorkflowMetrics.init.add_tokens 5 3).total_token_count = 8 := by
  exact ⟨⟨rfl, rfl, rfl⟩, ⟨rfl, rfl⟩, rfl, rfl, rfl⟩

/-- C4: CheckpointStep::run always returns a Checkpoint error carrying
the configured step name and the serialized input, degrading to the
placeholder marker value when serialization fails instead of propagating
a serialization error, and ConditionalCheckpointStep::run with a false
predicate returns the original input unchanged as a success; the
context is untouched in all three cases. -/
theorem checkpoint_spec {I : Type} (step_name : String)
    (serialize : I → Option Json) (predicate : I → Bool)
    (ctx : ExecutionContext) (input : I) :
    (∀ j, serialize input = some j →
        CheckpointStep_run step_name serialize ctx input
          = (Except.error (Error.Checkpoint step_name j), ctx))
  ∧ (serialize input = none →
        CheckpointStep_run step_name serialize ctx input
          = (Except.error
              (Error.Checkpoint step_name serializationPlaceholder), ctx))
  ∧ (predicate input = false →
        ConditionalCheckpointStep_run step_name predicate serialize ctx input
          = (Except.ok input, ctx)) := by
  refine ⟨?_, ?_, ?_⟩
  · intro j hj
    simp [CheckpointStep_run, hj]
  · intro hn
    simp [CheckpointStep_run, hn]
  · intro hp
    simp [ConditionalCheckpointStep_run, hp]

/-- checkpoint_spec_witness instantiates C4 at concrete inputs: a
serializable input, an unserializable input, and a false predicate. -/
theorem checkpoint_spec_witness :
    CheckpointStep_run "review" serializeNum ExecutionContext.new 4
      = (Except.error (Error.Checkpoint "review" (Json.num 4)),
          ExecutionContext.new)
  ∧ CheckpointStep_run "review" serializeNone ExecutionContext.new 4
      = (Except.error
          (Error.Checkpoint "review" serializationPlaceholder),
          ExecutionContext.new)
  ∧ ConditionalCheckpointStep_run "review" predFalse serializeNum
      ExecutionContext.new 4 = (Except.ok 4, ExecutionContext.new) := by
  refine ⟨?_, ?_, ?_⟩
  · exact (checkpoint_spec "review" serializeNum predFalse
      ExecutionContext.new 4).1 (Json.num 4) rfl
  · exact (checkpoint_spec "review" serializeNone predFalse
      ExecutionContext.new 4).2.1 rfl
  · exact (checkpoint_spec "review" serializeNum predFalse
      ExecutionContext.new 4).2.2 rfl

/-- C5: for a chain of A then B, when A fails B is never invoked (the
chain result is the same for every possible B and carries only the
context mutations A made) and the chain returns exactly the error of A
unchanged; when A succeeds B receives exactly the output of A, in the
context state A left behind. -/
theorem chain_short_circuit_spec {I M O : Type} (first : StepFn I M)
    (second : StepFn M O) (ctx : ExecutionContext) (input : I) :
    (∀ e ctx2, first ctx input = (Except.error e, ctx2) →
        ChainStep_run first second ctx input = (Except.error e, ctx2)
      ∧ ∀ second2 : StepFn M O,
          ChainStep_run first second2 ctx input = (Except.error e, ctx2))
  ∧ (∀ m ctx2, first ctx input = (Except.ok m, ctx2) →
        ChainStep_run first second ctx input = second ctx2 m) := by
  constructor
  · intro e ctx2 h
    constructor
    · simp [ChainStep_run, h]
    · intro second2
      simp [ChainStep_run, h]
  · intro m ctx2 h
    simp [ChainStep_run, h]

/-- chain_short_circuit_spec_witness instantiates C5 at a failing first
step and at a succeeding pair of steps. -/
theorem chain_short_circuit_spec_witness :
    ChainStep_run stepFail stepIncr ExecutionContext.new 7
      = (Except.error (Error.Message "inner failure"), ExecutionContext.new)
  ∧ ChainStep_run stepIncr stepDouble ExecutionContext.new 7
      = (Except.ok 16, ExecutionContext.new) := by
  constructor
  · exact ((chain_short_circuit_spec stepFail stepIncr ExecutionContext.new 7).1
      (Error.Message "inner failure") ExecutionContext.new rfl).1
  · have h := (chain_short_circuit_spec stepIncr stepDouble
      ExecutionContext.new 7).2 8 ExecutionContext.new rfl
    simpa [stepDouble] using h

/-- C7: StepAdapter::run hands the inner stateful operation a snapshot of
the currently held state together with the input; when the inner
operation succeeds the held state is replaced by the newly returned
state; when it fails the held state is left exactly as it was (no
partial update) and the adapter returns the inner error. -/
theorem step_adapter_state_update_spec {S I O : Type}
    (step : StateStepFn S I O) (ctx : ExecutionContext) (held : S)
    (input : I) :
    (∀ o s2 ctx2, step ctx held input = (Except.ok (o, s2), ctx2) →
        StepAdapter_run step ctx held input = (Except.ok o, s2, ctx2))
  ∧ (∀ e ctx2, step ctx held input = (Except.error e, ctx2) →
        StepAdapter_run step ctx held input
          = (Except.error e, held, ctx2)) := by
  constructor
  · intro o s2 ctx2 h
    simp [StepAdapter_run, h]
  · intro e ctx2 h
    simp [StepAdapter_run, h]

/-- step_adapter_state_update_spec_witness instantiates C7 at a counting
stateful step (state advances on success) and at a failing stateful step
(state stays put on failure). -/
theorem step_adapter_state_update_spec_witness :
    StepAdapter_run stateStepCount ExecutionContext.new 0 11
      = (Except.ok 0, 1, ExecutionContext.new)
  ∧ StepAdapter_run stateStepFail ExecutionContext.new 5 11
      = (Except.error (Error.Message "state failure"), 5,
          ExecutionContext.new) := by
  constructor
  · exact (step_adapter_state_update_spec stateStepCount
      ExecutionContext.new 0 11).1 0 1 ExecutionContext.new rfl
  · exact (step_adapter_state_update_spec stateStepFail
      ExecutionContext.new 5 11).2 (Error.Message "state failure")
      ExecutionContext.new rfl

/-- C8: tuple fan-out runs the first step to completion before the
second (the second runs in the context state the first produced), both
receive a copy of the same input, a failure of the first propagates with
the second never invoked (the result is the same for every possible
second step), and on two successes the result is exactly the pair of
the two outputs. -/
theorem chain_tuple_spec {I O1 O2 : Type} (first : StepFn I O1)
    (second : StepFn I O2) (ctx : ExecutionContext) (input : I) :
    (∀ e ctx2, first ctx input = (Except.error e, ctx2) →
        ChainTupleStep_run first second ctx input = (Except.error e, ctx2)
      ∧ ∀ second2 : StepFn I O2,
          ChainTupleStep_run first second2 ctx input = (Except.error e, ctx2))
  ∧ (∀ a ctx2, first ctx input = (Except.ok a, ctx2) →
      ∀ b ctx3, second ctx2 input = (Except.ok b, ctx3) →
        ChainTupleStep_run first second ctx input
          = (Except.ok (a, b), ctx3)) := by
  constructor
  · intro e ctx2 h
    constructor
    · simp [ChainTupleStep_run, h]
    · intro second2
      simp [ChainTupleStep_run, h]
  · intro a ctx2 h b ctx3 h2
    simp [ChainTupleStep_run, h, h2]

/-- chain_tuple_spec_witness instantiates C8 at a failing first step and
at a succeeding pair over the same duplicated input. -/
theorem chain_tuple_spec_witness :
    ChainTupleStep_run stepFail stepIncr ExecutionContext.new 7
      = (Except.error (Error.Message "inner failure"), ExecutionContext.new)
  ∧ ChainTupleStep_run stepIncr stepDouble ExecutionContext.new 7
      = (Except.ok (8, 14), ExecutionContext.new) := by
  constructor
  · exact ((chain_tuple_spec stepFail stepIncr ExecutionContext.new 7).1
      (Error.Message "inner failure") ExecutionContext.new rfl).1
  · exact (chain_tuple_spec stepIncr stepDouble ExecutionContext.new 7).2
      8 ExecutionContext.new rfl 14 ExecutionContext.new rfl

/-- C9: when the wrapped step fails, Workflow::run returns exactly the
step error and nothing else: no metrics snapshot is part of the result
and the conclusion does not depend on the context the step left behind,
so the fresh context and everything recorded in it is discarded. -/
theorem workflow_run_failure_spec {I O : Type} (step : StepFn I O)
    (input : I) (e : Error) (ctx2 : ExecutionContext)
    (h : step ExecutionContext.new input = (Except.error e, ctx2)) :
    Workflow_run step input = Except.error e := by
  simp [Workflow_run, h]

/-- workflow_run_failure_spec_witness instantiates C9 at a concrete
failing step. -/
theorem workflow_run_failure_spec_witness :
    Workflow_run stepFail 3 = Except.error (Error.Message "inner failure") :=
  workflow_run_failure_spec stepFail 3 (Error.Message "inner failure")
    ExecutionContext.new rfl

/-- C10: on an empty input sequence SingleItemAdapter::run, BatchStep::run
and ParallelMapStep::run all succeed with an empty output; the inner
step is never invoked (the batch loop runs zero iterations and the
statements hold for every inner step), and the context is returned
untouched, so no inner-step context mutations occur. -/
theorem empty_input_spec {I O : Type} (step : StepFn I O)
    (bstep : StepFn (List I) (List O)) (outcome : I → Except Error O)
    (c : Nat) (ctx : ExecutionContext) :
    SingleItemAdapter_run step ctx [] = (Except.ok [], ctx)
  ∧ BatchStep_run bstep c ctx [] = (Except.ok [], ctx)
  ∧ BatchStep_invocations bstep c ctx [] = 0
  ∧ ParallelMapStep_run outcome [] = Except.ok [] := by
  refine ⟨rfl, ?_, ?_, rfl⟩
  · simp [BatchStep_run, chunksRun, batchLoop]
  · simp [BatchStep_invocations, chunksRun, batchLoop]

/-- C2: ParallelMapStep::run over an input sequence: when every per-item
invocation succeeds, the call returns a sequence of the same length
whose position k holds exactly the inner output for input k (positional,
independent of completion order, since join_all yields results in input
order); when one or more invocations fail, the call returns exactly one
error, the error of the failing input with the lowest index in input
order. -/
theorem parallel_map_spec {I O : Type} (outcome : I → Except Error O)
    (input : List I) :
    ((∀ i ∈ input, (outcome i).isOk = true) →
      ∃ os, ParallelMapStep_run outcome input = Except.ok os ∧
        os.length = input.length ∧
        ∀ k : Nat, (input[k]?).map outcome = (os[k]?).map Except.ok)
  ∧ (∀ j : Nat, ∀ i : I, ∀ e : Error, input[j]? = some i →
      outcome i = Except.error e →
      (∀ i2 ∈ input.take j, (outcome i2).isOk = true) →
      ParallelMapStep_run outcome input = Except.error e) := by
  constructor
  · intro h
    obtain ⟨os, hos, hlen, hidx⟩ := collectResults_all_ok (input.map outcome)
      (by
        intro r hr
        obtain ⟨i, hi, rfl⟩ := List.mem_map.mp hr
        exact h i hi)
    refine ⟨os, hos, by simpa using hlen, ?_⟩
    intro k
    have hk := hidx k
    rw [List.getElem?_map] at hk
    exact hk
  · intro j i e hj he hpre
    show collectResults (input.map outcome) = Except.error e
    apply collectResults_first_error (input.map outcome) j e
    · rw [List.getElem?_map, hj]
      simp [he]
    · intro r2 hm
      rw [← List.map_take] at hm
      obtain ⟨i2, hi2, rfl⟩ := List.mem_map.mp hm
      exact hpre i2 hi2

/-- parallel_map_spec_witness instantiates C2: with items 0,1,2,3 where
item 2 fails, the call returns exactly that error although item 3 also
ran; with items 0,1 all succeeding, the call returns both outputs in
position. -/
theorem parallel_map_spec_witness :
    ParallelMapStep_run outcomeC2 [0, 1, 2, 3]
      = Except.error (Error.Message "boom")
  ∧ ∃ os, ParallelMapStep_run outcomeC2 [0, 1] = Except.ok os ∧
      os.length = 2 ∧
      ∀ k : Nat, (([0, 1] : List Nat)[k]?).map outcomeC2
        = (os[k]?).map Except.ok := by
  constructor
  · exact (parallel_map_spec outcomeC2 [0, 1, 2, 3]).2 2 2
      (Error.Message "boom") rfl rfl (by decide)
  · obtain ⟨os, h1, h2, h3⟩ := (parallel_map_spec outcomeC2 [0, 1]).1 (by decide)
    exact ⟨os, h1, by simpa using h2, h3⟩

/-- C3: BatchStep::run with positive chunk size c over n items invokes
the inner step exactly ceiling(n/c) times when every chunk succeeds;
every chunk except possibly the last has exactly c items and the last
chunk holds the remaining items; the concatenation of the chunks in
chunk order is the original input, and an inner step that maps each
chunk elementwise yields the elementwise map of the whole input, so
concatenated outputs preserve the original order; and BatchStep::new
with chunk size zero fails deterministically (the assertion refuses the
configuration). -/
theorem batch_step_spec {I O : Type} (step : StepFn (List I) (List O))
    (c : Nat) (hc : 0 < c) (ctx : ExecutionContext) (l : List I)
    (g : I → O) :
    ((∀ ctx2 ch, ch ∈ chunksRun c l → ((step ctx2 ch).1).isOk = true) →
        BatchStep_invocations step c ctx l = (l.length + c - 1) / c)
  ∧ (∀ ch ∈ (chunksRun c l).dropLast, ch.length = c)
  ∧ (∀ ch, (chunksRun c l).getLast? = some ch →
        ch.length = l.length - c * ((chunksRun c l).length - 1))
  ∧ ((chunksRun c l).flatten = l)
  ∧ ((∀ ctx2 ch, ch ∈ chunksRun c l →
        (step ctx2 ch).1 = Except.ok (ch.map g)) →
      (BatchStep_run step c ctx l).1 = Except.ok (l.map g))
  ∧ BatchStep_new 0 = none := by
  refine ⟨?_, chunksRun_dropLast_length c hc l,
    chunksRun_getLast_length c hc l, chunksRun_flatten c l, ?_, rfl⟩
  · intro h
    show (batchLoop step (chunksRun c l) ctx).2 = (l.length + c - 1) / c
    rw [batchLoop_count_all_ok step (chunksRun c l) h ctx]
    exact chunksRun_length c hc l
  · intro h
    show ((batchLoop step (chunksRun c l) ctx).1).1 = Except.ok (l.map g)
    rw [batchLoop_map_ok step g (chunksRun c l) h ctx]
    rw [chunksRun_flatten]

/-- batch_step_spec_witness instantiates C3 with chunk size two over
three items and an elementwise inner step: two invocations, outputs in
original order, and construction with chunk size zero refused. -/
theorem batch_step_spec_witness :
    (0 : Nat) < 2
  ∧ BatchStep_invocations stepMapTimesTen 2 ExecutionContext.new [1, 2, 3] = 2
  ∧ (BatchStep_run stepMapTimesTen 2 ExecutionContext.new [1, 2, 3]).1
      = Except.ok [10, 20, 30]
  ∧ BatchStep_new 0 = none := by
  have hspec := batch_step_spec stepMapTimesTen 2 (by decide)
    ExecutionContext.new [1, 2, 3] (fun n => 10 * n)
  refine ⟨by decide, ?_, ?_, hspec.2.2.2.2.2⟩
  · have h := hspec.1 (fun ctx2 ch _ => rfl)
    rw [h]
    decide
  · have h := hspec.2.2.2.2.1 (fun ctx2 ch _ => rfl)
    simpa using h

/-- C6: InstrumentedStep::run returns the inner result unchanged in both
cases; a StepStart event is emitted before the inner call; on success
exactly one completed-step metric is recorded and a StepEnd event with
the duration is appended, with failures untouched; on failure exactly
one failure metric carrying the textual form of the error is recorded
and an Error event is appended, with the completed-step counter
untouched. -/
theorem instrumented_step_spec {I O : Type} (inner : StepFn I O)
    (step_name input_type : String) (duration_ms : Nat)
    (ctx : ExecutionContext) (input : I) :
    (InstrumentedStep_run inner step_name input_type duration_ms ctx input).1
      = (inner (ctx.emit (WorkflowEvent.StepStart step_name input_type)) input).1
  ∧ (ctx.emit (WorkflowEvent.StepStart step_name input_type)).traces
      = ctx.traces ++ [WorkflowEvent.StepStart step_name input_type]
  ∧ (∀ v, (inner (ctx.emit (WorkflowEvent.StepStart step_name input_type)) input).1
        = Except.ok v →
      ((InstrumentedStep_run inner step_name input_type duration_ms ctx input).2.metrics.steps_completed
          = (inner (ctx.emit (WorkflowEvent.StepStart step_name input_type)) input).2.metrics.steps_completed + 1
        ∧ (InstrumentedStep_run inner step_name input_type duration_ms ctx input).2.metrics.failures
          = (inner (ctx.emit (WorkflowEvent.StepStart step_name input_type)) input).2.metrics.failures
        ∧ (InstrumentedStep_run inner step_name input_type duration_ms ctx input).2.traces
          = (inner (ctx.emit (WorkflowEvent.StepStart step_name input_type)) input).2.traces
            ++ [WorkflowEvent.StepEnd step_name duration_ms]))
  ∧ (∀ e, (inner (ctx.emit (WorkflowEvent.StepStart step_name input_type)) input).1
        = Except.error e →
      ((InstrumentedStep_run inner step_name input_type duration_ms ctx input).2.metrics.steps_completed
          = (inner (ctx.emit (WorkflowEvent.StepStart step_name input_type)) input).2.metrics.steps_completed
        ∧ (InstrumentedStep_run inner step_name input_type duration_ms ctx input).2.metrics.failures
          = (inner (ctx.emit (WorkflowEvent.StepStart step_name input_type)) input).2.metrics.failures
            ++ [e.display]
        ∧ (InstrumentedStep_run inner step_name input_type duration_ms ctx input).2.traces
          = (inner (ctx.emit (WorkflowEvent.StepStart step_name input_type)) input).2.traces
            ++ [WorkflowEvent.Error step_name e.display])) := by
  refine ⟨?_, rfl, ?_, ?_⟩
  · rcases hres : (inner (ctx.emit (WorkflowEvent.StepStart step_name input_type)) input).1 with e | v
    · simp [InstrumentedStep_run, hres]
    · simp [InstrumentedStep_run, hres]
  · intro v hv
    refine ⟨?_, ?_, ?_⟩ <;>
      · simp only [InstrumentedStep_run, hv]
        simp [ExecutionContext.emit, ExecutionContext.record_step,
          WorkflowMetrics.record_step]
  · intro e he
    refine ⟨?_, ?_, ?_⟩ <;>
      · simp only [InstrumentedStep_run, he]
        simp [ExecutionContext.emit, ExecutionContext.record_failure,
          WorkflowMetrics.record_failure]

/-- instrumented_step_spec_witness instantiates C6 at a succeeding step
(result passed through, one completed step, StepStart then StepEnd) and
at a failing step (error passed through, one failure recorded with the
displayed message, StepStart then Error event). -/
theorem instrumented_step_spec_witness :
    (InstrumentedStep_run stepIncr "incr" "Nat" 5 ExecutionContext.new 3).1
      = Except.ok 4
  ∧ (InstrumentedStep_run stepIncr "incr" "Nat" 5 ExecutionContext.new 3).2.metrics.steps_completed = 1
  ∧ (InstrumentedStep_run stepIncr "incr" "Nat" 5 ExecutionContext.new 3).2.traces
      = [WorkflowEvent.StepStart "incr" "Nat", WorkflowEvent.StepEnd "incr" 5]
  ∧ (InstrumentedStep_run stepFail "f" "Nat" 5 ExecutionContext.new 3).1
      = Except.error (Error.Message "inner failure")
  ∧ (InstrumentedStep_run stepFail "f" "Nat" 5 ExecutionContext.new 3).2.metrics.failures
      = ["inner failure"] := by
  have hok := instrumented_step_spec stepIncr "incr" "Nat" 5
    ExecutionContext.new 3
  have herr := instrumented_step_spec stepFail "f" "Nat" 5
    ExecutionContext.new 3
  refine ⟨?_, ?_, ?_, ?_, ?_⟩
  · simpa [stepIncr] using hok.1
  · simpa [stepIncr, ExecutionContext.emit, ExecutionContext.new,
      WorkflowMetrics.init] using (hok.2.2.1 4 rfl).1
  · simpa [stepIncr, ExecutionContext.emit, ExecutionContext.new]
      using (hok.2.2.1 4 rfl).2.2
  · simpa [stepFail] using herr.1
  · simpa [stepFail, Error.display, ExecutionContext.emit,
      ExecutionContext.new, WorkflowMetrics.init]
      using (herr.2.2.2 (Error.Message "inner failure") rfl).2.1
